import Mathlib

/-!
Shallow embedding of the `timedmap` package: a generic key/value store whose
entries age out after a default expiration period.  Wall-clock time is
modelled as an integer timestamp passed explicitly to each operation that
reads the clock in the source (`time.Now()`), and the Go backing map
`map[K]mapEntry[V]` is modelled as an association list with unique keys.
-/

namespace timedmap

/-- mapEntry is a wrapper around a generic value V, adding an expiresAt
field (an absolute timestamp, modelled as an integer). -/
structure mapEntry (V : Type) where
  expiresAt : Int
  v : V
deriving DecidableEq

/-- isExpired returns true if the expiration time of the mapEntry has
passed — the current time is strictly after expiresAt — otherwise false
(Go: `time.Now().After(me.expiresAt)`). -/
def mapEntry.isExpired {V : Type} (me : mapEntry V) (now : Int) : Bool :=
  decide (me.expiresAt < now)

/-- Map is a generic key/value store that expires entries after a
user-defined defaultExpiration period. -/
structure Map (K V : Type) where
  defaultExpiration : Int
  m : List (K × mapEntry V)
deriving DecidableEq

variable {K V A B : Type} [DecidableEq K]

/-- Read of the Go backing map: `me, found := m.m[k]`. -/
def lookupKey (k : K) : List (K × A) → Option A
  | [] => none
  | p :: rest => if p.1 = k then some p.2 else lookupKey k rest

/-- Removal from the Go backing map: `delete(m.m, k)` (a no-op when the
key is absent). -/
def deleteKey (k : K) : List (K × A) → List (K × A)
  | [] => []
  | p :: rest => if p.1 = k then deleteKey k rest else p :: deleteKey k rest

/-- Assignment to the Go backing map: `m.m[k] = e` (insert or overwrite,
keeping at most one entry per key). -/
def assignKey (k : K) (e : A) (l : List (K × A)) : List (K × A) :=
  deleteKey k l ++ [(k, e)]

/-- New creates a new Map. -/
def New (t : Int) : Map K V := { defaultExpiration := t, m := [] }

/-- Get gets a value by key from a Map along with a boolean indicating
whether the key was found.  If not found, or found but expired, the value
is the zero value and the boolean is false.  The Go body takes only the
read lock and performs no write, so it is embedded as a pure function of
the map. -/
def Map.Get [Inhabited V] (m : Map K V) (k : K) (now : Int) : V × Bool :=
  match lookupKey k m.m with
  | none => (default, false)
  | some me => if me.isExpired now then (default, false) else (me.v, true)

/-- Set sets a key/value pair in a map along with a default expiration of
`now + defaultExpiration`, overwriting any existing entry. -/
def Map.Set (m : Map K V) (k : K) (v : V) (now : Int) : Map K V :=
  { m with m := assignKey k { v := v, expiresAt := now + m.defaultExpiration } m.m }

/-- Delete deletes an entry from a Map given its key and returns true only
when the entry existed and was not expired; the entry is removed in every
case (removal of an absent key is a no-op). -/
def Map.Delete (m : Map K V) (k : K) (now : Int) : Map K V × Bool :=
  let retval := match lookupKey k m.m with
    | none => false
    | some entry => !entry.isExpired now
  ({ m with m := deleteKey k m.m }, retval)

/-- SetExpiration sets a custom expiration time for a Map entry given its
key.  If the key does not exist in the Map, the function returns false and
does nothing. -/
def Map.SetExpiration (m : Map K V) (k : K) (expires : Int) : Map K V × Bool :=
  match lookupKey k m.m with
  | none => (m, false)
  | some e => ({ m with m := assignKey k { e with expiresAt := expires } m.m }, true)

/-- Reset resets the expiration for a Map entry given its key.  If the key
does not exist in the Map, the function returns false and does nothing. -/
def Map.Reset (m : Map K V) (k : K) (now : Int) : Map K V × Bool :=
  match lookupKey k m.m with
  | none => (m, false)
  | some e => ({ m with m := assignKey k { e with expiresAt := now + m.defaultExpiration } m.m }, true)

/-- Purge deletes all expired entries from the Map and returns the number
of deleted entries. -/
def Map.Purge (m : Map K V) (now : Int) : Map K V × Nat :=
  ({ m with m := m.m.filter (fun p => !p.2.isExpired now) },
   (m.m.filter (fun p => p.2.isExpired now)).length)

/-- Dump returns a standard map containing the unexpired values within the
Map, as a freshly built association list. -/
def Map.Dump (m : Map K V) (now : Int) : List (K × V) :=
  (m.m.filter (fun p => !p.2.isExpired now)).map (fun p => (p.1, p.2.v))

/-- Well-formedness of the model: the backing association list has at most
one entry per key, as a Go map does. -/
def Map.WF (m : Map K V) : Prop := (m.m.map Prod.fst).Nodup

instance (m : Map K V) : Decidable m.WF :=
  inferInstanceAs (Decidable ((m.m.map Prod.fst).Nodup))

/-- Conceptual per-entry state: absent from the backing map, present and
live, or present but logically expired. -/
inductive EntryStatus where
  | absent
  | live
  | expired
deriving DecidableEq

/-- The conceptual state of the entry for key k at time now. -/
def Map.status (m : Map K V) (k : K) (now : Int) : EntryStatus :=
  match lookupKey k m.m with
  | none => .absent
  | some e => if e.isExpired now then .expired else .live

/-- A sample map used by the concrete witnesses: default TTL 10, one entry
that is live at time 3 (expires at 5) and one already expired at time 3
(expired at 0). -/
def sample1 : Map Nat Nat :=
  { defaultExpiration := 10, m := [(1, { expiresAt := 5, v := 42 }), (2, { expiresAt := 0, v := 7 })] }

/-- A sample map with a single entry that is expired at time 5 but still
physically present (not yet purged). -/
def revSample : Map Nat Nat :=
  { defaultExpiration := 10, m := [(1, { expiresAt := 0, v := 7 })] }

theorem lookupKey_append_of_none {k : K} {l₁ : List (K × A)} (l₂ : List (K × A))
    (h : lookupKey k l₁ = none) : lookupKey k (l₁ ++ l₂) = lookupKey k l₂ := by
  induction l₁ with
  | nil => rfl
  | cons p rest ih =>
    simp only [lookupKey] at h ⊢
    by_cases hpk : p.1 = k
    · simp [hpk] at h
    · simp only [hpk, if_false] at h ⊢
      exact ih h

theorem lookupKey_append_of_some {k : K} {l₁ : List (K × A)} {e : A} (l₂ : List (K × A))
    (h : lookupKey k l₁ = some e) : lookupKey k (l₁ ++ l₂) = some e := by
  induction l₁ with
  | nil => simp [lookupKey] at h
  | cons p rest ih =>
    simp only [lookupKey] at h ⊢
    by_cases hpk : p.1 = k
    · simpa [hpk] using h
    · simp only [hpk, if_false] at h ⊢
      exact ih h

theorem lookupKey_deleteKey_self (k : K) (l : List (K × A)) :
    lookupKey k (deleteKey k l) = none := by
  induction l with
  | nil => rfl
  | cons p rest ih =>
    by_cases hpk : p.1 = k
    · simpa [deleteKey, hpk] using ih
    · simpa [deleteKey, lookupKey, hpk] using ih

theorem lookupKey_deleteKey_ne {k' k : K} (h : k' ≠ k) (l : List (K × A)) :
    lookupKey k' (deleteKey k l) = lookupKey k' l := by
  induction l with
  | nil => rfl
  | cons p rest ih =>
    simp only [deleteKey, lookupKey]
    by_cases hpk : p.1 = k
    · rw [if_pos hpk, ih, if_neg (fun hc : p.1 = k' => h (hc.symm.trans hpk))]
    · rw [if_neg hpk]
      simp only [lookupKey]
      by_cases hpk' : p.1 = k'
      · rw [if_pos hpk', if_pos hpk']
      · rw [if_neg hpk', if_neg hpk', ih]

theorem lookupKey_assignKey_self (k : K) (e : A) (l : List (K × A)) :
    lookupKey k (assignKey k e l) = some e := by
  unfold assignKey
  rw [lookupKey_append_of_none _ (lookupKey_deleteKey_self k l)]
  simp [lookupKey]

theorem lookupKey_assignKey_ne {k' k : K} (h : k' ≠ k) (e : A) (l : List (K × A)) :
    lookupKey k' (assignKey k e l) = lookupKey k' l := by
  unfold assignKey
  cases hl : lookupKey k' (deleteKey k l) with
  | none =>
    rw [lookupKey_append_of_none _ hl]
    rw [lookupKey_deleteKey_ne h] at hl
    simp only [lookupKey]
    rw [if_neg (fun hc : k = k' => h hc.symm), hl]
  | some e' =>
    rw [lookupKey_append_of_some _ hl]
    rw [lookupKey_deleteKey_ne h] at hl
    exact hl.symm

theorem lookupKey_eq_none_of_not_mem {k : K} {l : List (K × A)}
    (h : k ∉ l.map Prod.fst) : lookupKey k l = none := by
  induction l with
  | nil => rfl
  | cons p rest ih =>
    rw [List.map_cons, List.mem_cons, not_or] at h
    simp only [lookupKey]
    rw [if_neg (fun hpk => h.1 hpk.symm)]
    exact ih h.2

omit [DecidableEq K] in
theorem not_mem_keys_filter {k : K} (q : K × A → Bool) {l : List (K × A)}
    (h : k ∉ l.map Prod.fst) : k ∉ (l.filter q).map Prod.fst := by
  intro hmem
  apply h
  rcases List.mem_map.mp hmem with ⟨p, hp, rfl⟩
  exact List.mem_map.mpr ⟨p, (List.mem_filter.mp hp).1, rfl⟩

theorem lookupKey_filter (q : K × A → Bool) (l : List (K × A))
    (h : (l.map Prod.fst).Nodup) (k : K) :
    lookupKey k (l.filter q) =
      (lookupKey k l).bind (fun e => if q (k, e) then some e else none) := by
  induction l with
  | nil => rfl
  | cons p rest ih =>
    rw [List.map_cons, List.nodup_cons] at h
    by_cases hpk : p.1 = k
    · have hpair : (k, p.2) = p := by
        rw [← hpk]
      by_cases hq : q p
      · simp [List.filter_cons, hq, lookupKey, hpk, hpair]
      · have hrest : lookupKey k (rest.filter q) = none :=
          lookupKey_eq_none_of_not_mem (not_mem_keys_filter q (hpk ▸ h.1))
        simp [List.filter_cons, hq, lookupKey, hpk, hpair, hrest]
    · by_cases hq : q p
      · simp [List.filter_cons, hq, lookupKey, hpk, ih h.2]
      · simp [List.filter_cons, hq, lookupKey, hpk, ih h.2]

theorem lookupKey_map_snd (f : A → B) (l : List (K × A)) (k : K) :
    lookupKey k (l.map (fun p => (p.1, f p.2))) = (lookupKey k l).map f := by
  induction l with
  | nil => rfl
  | cons p rest ih =>
    by_cases hpk : p.1 = k
    · simp [lookupKey, hpk]
    · simp [lookupKey, hpk, ih]

theorem length_filter_add_length_filter_not {α : Type} (p : α → Bool) (l : List α) :
    (l.filter (fun a => !p a)).length + (l.filter p).length = l.length := by
  induction l with
  | nil => rfl
  | cons a rest ih =>
    by_cases hp : p a <;> simp [List.filter_cons, hp] <;> omega

theorem filter_filter_not_eq_nil {α : Type} (p : α → Bool) (l : List α) :
    (l.filter (fun a => !p a)).filter p = [] := by
  induction l with
  | nil => rfl
  | cons a rest ih =>
    by_cases hp : p a <;> simp [List.filter_cons, hp, ih]

/-- Claim C1: for every key k, Get returns (zero-value, false) when k is
absent from the backing mapping or present but logically expired at call
time, and (storedValue, true) otherwise; an expired entry's stale stored
value is never returned.  Get is embedded as a pure function of the map
because its body performs no write (it only holds the read lock), so it
cannot mutate the Map — in particular it does not remove an expired entry. -/
theorem c1_get_spec [Inhabited V] (m : Map K V) (k : K) (now : Int) :
    (lookupKey k m.m = none → m.Get k now = (default, false)) ∧
    (∀ e, lookupKey k m.m = some e → e.isExpired now = true →
      m.Get k now = (default, false)) ∧
    (∀ e, lookupKey k m.m = some e → e.isExpired now = false →
      m.Get k now = (e.v, true)) ∧
    ((m.Get k now).2 = true ↔ ∃ e, lookupKey k m.m = some e ∧ e.isExpired now = false) := by
  refine ⟨?_, ?_, ?_, ?_, ?_⟩
  · intro hl
    simp [Map.Get, hl]
  · intro e hl he
    simp [Map.Get, hl, he]
  · intro e hl he
    simp [Map.Get, hl, he]
  · intro h2
    cases hl : lookupKey k m.m with
    | none => simp [Map.Get, hl] at h2
    | some e =>
      by_cases he : e.isExpired now
      · simp [Map.Get, hl, he] at h2
      · exact ⟨e, rfl, by simpa using he⟩
  · rintro ⟨e, hl, he⟩
    simp [Map.Get, hl, he]

/-- Concrete instantiation of the Get specification on sample1 at time 3:
a live entry is returned, an expired one and an absent one are not. -/
theorem c1_witness :
    sample1.Get 1 3 = (42, true) ∧ sample1.Get 2 3 = (0, false) ∧
      sample1.Get 9 3 = (0, false) :=
  ⟨(c1_get_spec sample1 1 3).2.2.1 { expiresAt := 5, v := 42 } (by decide) (by decide),
   (c1_get_spec sample1 2 3).2.1 { expiresAt := 0, v := 7 } (by decide) (by decide),
   (c1_get_spec sample1 9 3).1 (by decide)⟩

/-- Claim C2: Set unconditionally inserts or overwrites the entry for k
with value v and expiration now + defaultTTL, regardless of any prior
entry; with a positive default TTL, a Get immediately after the Set finds
the value. -/
theorem c2_set_spec [Inhabited V] (m : Map K V) (k : K) (v : V) (now : Int) :
    lookupKey k (m.Set k v now).m = some { expiresAt := now + m.defaultExpiration, v := v } ∧
    (0 < m.defaultExpiration → (m.Set k v now).Get k now = (v, true)) := by
  have hl : lookupKey k (m.Set k v now).m =
      some { expiresAt := now + m.defaultExpiration, v := v } :=
    lookupKey_assignKey_self k _ m.m
  refine ⟨hl, fun hpos => ?_⟩
  have hexp : mapEntry.isExpired { expiresAt := now + m.defaultExpiration, v := v } now
      = false := by
    simp only [mapEntry.isExpired, decide_eq_false_iff_not]
    omega
  simp [Map.Get, hl, hexp]

/-- Concrete instantiation of the Set/Get round trip: sample1 has a TTL of
10 > 0, and setting key 3 then reading it at the same instant finds it,
even though key 1 already existed and is overwritten the same way. -/
theorem c2_witness :
    ((sample1.Set 3 99 4).Get 3 4 = (99, true)) ∧ ((sample1.Set 1 99 4).Get 1 4 = (99, true)) :=
  ⟨(c2_set_spec sample1 3 99 4).2 (by decide), (c2_set_spec sample1 1 99 4).2 (by decide)⟩

/-- Claim C3: Purge removes exactly the entries logically expired at call
time and returns the number removed; live entries survive unchanged, and a
second Purge at the same time removes nothing. -/
theorem c3_purge_spec (m : Map K V) (now : Int) (hwf : m.WF) :
    (∀ k e, lookupKey k m.m = some e → e.isExpired now = false →
      lookupKey k (m.Purge now).1.m = some e) ∧
    (∀ k e, lookupKey k m.m = some e → e.isExpired now = true →
      lookupKey k (m.Purge now).1.m = none) ∧
    (∀ k, lookupKey k m.m = none → lookupKey k (m.Purge now).1.m = none) ∧
    (m.Purge now).1.m.length + (m.Purge now).2 = m.m.length ∧
    ((m.Purge now).1.Purge now).2 = 0 := by
  have hfil : ∀ k : K, lookupKey k (m.Purge now).1.m =
      (lookupKey k m.m).bind (fun e => if !e.isExpired now then some e else none) :=
    fun k => lookupKey_filter _ m.m hwf k
  refine ⟨?_, ?_, ?_, ?_, ?_⟩
  · intro k e hl he
    rw [hfil k, hl]
    simp [he]
  · intro k e hl he
    rw [hfil k, hl]
    simp [he]
  · intro k hl
    rw [hfil k, hl]
    rfl
  · exact length_filter_add_length_filter_not _ m.m
  · show ((m.m.filter (fun p => !p.2.isExpired now)).filter
      (fun p => p.2.isExpired now)).length = 0
    rw [filter_filter_not_eq_nil]
    rfl

/-- Concrete instantiation of the Purge specification on sample1 at time
3: the live entry survives, the expired one is removed, exactly one entry
is removed, and an immediate second Purge removes nothing. -/
theorem c3_witness :
    lookupKey 1 (sample1.Purge 3).1.m = some { expiresAt := 5, v := 42 } ∧
    lookupKey 2 (sample1.Purge 3).1.m = none ∧
    (sample1.Purge 3).1.m.length + (sample1.Purge 3).2 = sample1.m.length ∧
    ((sample1.Purge 3).1.Purge 3).2 = 0 :=
  have h := c3_purge_spec sample1 3 (by decide)
  ⟨h.1 1 { expiresAt := 5, v := 42 } (by decide) (by decide),
   h.2.1 2 { expiresAt := 0, v := 7 } (by decide) (by decide),
   h.2.2.2.1, h.2.2.2.2⟩

/-- Claim C4: Delete removes the entry for k unconditionally (no-op when
absent) and returns true iff the entry was present and not logically
expired at removal time; on an expired entry it returns false yet leaves
the key absent, so a second Delete also returns false. -/
theorem c4_delete_spec (m : Map K V) (k : K) (now : Int) :
    lookupKey k (m.Delete k now).1.m = none ∧
    ((m.Delete k now).2 = true ↔ ∃ e, lookupKey k m.m = some e ∧ e.isExpired now = false) ∧
    ((m.Delete k now).1.Delete k now).2 = false := by
  refine ⟨lookupKey_deleteKey_self k m.m, ?_, ?_⟩
  · cases hl : lookupKey k m.m with
    | none => simp [Map.Delete, hl]
    | some e => simp [Map.Delete, hl]
  · simp [Map.Delete, lookupKey_deleteKey_self]

/-- Concrete instantiation of the Delete specification on sample1 at time
3: deleting the expired key 2 leaves it absent, deleting the live key 1
returns true, and a second delete of key 2 returns false. -/
theorem c4_witness :
    lookupKey 2 (sample1.Delete 2 3).1.m = none ∧ (sample1.Delete 1 3).2 = true ∧
      ((sample1.Delete 2 3).1.Delete 2 3).2 = false :=
  ⟨(c4_delete_spec sample1 2 3).1,
   (c4_delete_spec sample1 1 3).2.1.mpr ⟨{ expiresAt := 5, v := 42 }, by decide, by decide⟩,
   (c4_delete_spec sample1 2 3).2.2⟩

/-- Claim C5: SetExpiration returns false and leaves the Map unchanged
when k is absent; when k is present it sets the entry's expiration to the
given absolute time (possibly in the past, immediately expiring it),
preserves the stored value, and returns true, regardless of whether the
entry was already logically expired (no expiry check is made). -/
theorem c5_setexpiration_spec (m : Map K V) (k : K) (t : Int) :
    (lookupKey k m.m = none → m.SetExpiration k t = (m, false)) ∧
    (∀ e, lookupKey k m.m = some e →
      (m.SetExpiration k t).2 = true ∧
      lookupKey k (m.SetExpiration k t).1.m = some { expiresAt := t, v := e.v } ∧
      (∀ now, (m.SetExpiration k t).1.status k now =
        if t < now then EntryStatus.expired else EntryStatus.live)) := by
  refine ⟨fun hl => ?_, fun e hl => ?_⟩
  · simp [Map.SetExpiration, hl]
  · refine ⟨?_, ?_, fun now => ?_⟩
    · simp [Map.SetExpiration, hl]
    · simp [Map.SetExpiration, hl, lookupKey_assignKey_self]
    · simp [Map.SetExpiration, Map.status, hl, lookupKey_assignKey_self, mapEntry.isExpired]

/-- Concrete instantiation of the SetExpiration specification on sample1:
an absent key causes no mutation; moving the already-expired key 2 to a
future time revives it with its value preserved, and moving the live key 1
into the past immediately expires it. -/
theorem c5_witness :
    sample1.SetExpiration 9 100 = (sample1, false) ∧
    lookupKey 2 (sample1.SetExpiration 2 100).1.m = some { expiresAt := 100, v := 7 } ∧
    (sample1.SetExpiration 1 1).1.status 1 3 = EntryStatus.expired :=
  ⟨(c5_setexpiration_spec sample1 9 100).1 (by decide),
   ((c5_setexpiration_spec sample1 2 100).2 { expiresAt := 0, v := 7 } (by decide)).2.1,
   by
    have h := ((c5_setexpiration_spec sample1 1 1).2 { expiresAt := 5, v := 42 }
      (by decide)).2.2 3
    simpa using h⟩

/-- Claim C6: Dump returns a freshly built mapping containing exactly the
key/value pairs of the entries not logically expired at call time; expired
keys are never included, and since Dump is embedded as a pure function of
the map (its Go body only holds the read lock and writes only to the fresh
result map), it does not remove expired entries from the Map, and the
result is an independent value. -/
theorem c6_dump_spec (m : Map K V) (now : Int) (hwf : m.WF) :
    (∀ k e, lookupKey k m.m = some e → e.isExpired now = false →
      lookupKey k (m.Dump now) = some e.v) ∧
    (∀ k e, lookupKey k m.m = some e → e.isExpired now = true →
      lookupKey k (m.Dump now) = none) ∧
    (∀ k, lookupKey k m.m = none → lookupKey k (m.Dump now) = none) := by
  have hmap : ∀ k : K, lookupKey k (m.Dump now) =
      (lookupKey k (m.m.filter (fun p => !p.2.isExpired now))).map mapEntry.v :=
    fun k => lookupKey_map_snd mapEntry.v _ k
  have hfil : ∀ k : K, lookupKey k (m.m.filter (fun p => !p.2.isExpired now)) =
      (lookupKey k m.m).bind (fun e => if !e.isExpired now then some e else none) :=
    fun k => lookupKey_filter _ m.m hwf k
  refine ⟨?_, ?_, ?_⟩
  · intro k e hl he
    rw [hmap k, hfil k, hl]
    simp [he]
  · intro k e hl he
    rw [hmap k, hfil k, hl]
    simp [he]
  · intro k hl
    rw [hmap k, hfil k, hl]
    rfl

/-- Concrete instantiation of the Dump specification on sample1 at time 3:
the live key 1 appears with its value, the expired key 2 and the absent
key 9 do not appear. -/
theorem c6_witness :
    lookupKey 1 (sample1.Dump 3) = some 42 ∧ lookupKey 2 (sample1.Dump 3) = none ∧
      lookupKey 9 (sample1.Dump 3) = none :=
  have h := c6_dump_spec sample1 3 (by decide)
  ⟨h.1 1 { expiresAt := 5, v := 42 } (by decide) (by decide),
   h.2.1 2 { expiresAt := 0, v := 7 } (by decide) (by decide),
   h.2.2 9 (by decide)⟩

/-- Claim C7: Reset(k) at time now is the same function as
SetExpiration(k, now + defaultTTL): identical return value and identical
resulting map, including the false/no-mutation behaviour on an absent key. -/
theorem c7_reset_eq_setexpiration (m : Map K V) (k : K) (now : Int) :
    m.Reset k now = m.SetExpiration k (now + m.defaultExpiration) := rfl

/-- Claim C8 counterexample: with a zero default TTL, an entry created by
Set at time 0 has expiresAt = 0, and since expiry requires the current
time to be strictly after expiresAt, a Get at the very moment of creation
still finds it: it returns (5, true), not not-found as the claim states. -/
theorem c8_counterexample :
    ((New 0 : Map Nat Nat).Set 1 5 0).Get 1 0 = (5, true) := by decide

/-- Claim C8 (amended): with a zero or negative default TTL, every entry
created by Set is logically expired at every time strictly after its
creation, and with a strictly negative default TTL it is already expired
at the creation instant itself; no validation error is raised for such a
TTL (New accepts any duration and builds an empty map). -/
theorem c8_amended_spec [Inhabited V] (m : Map K V) (k : K) (v : V) (now later : Int) :
    (m.defaultExpiration ≤ 0 → now < later → (m.Set k v now).Get k later = (default, false)) ∧
    (m.defaultExpiration < 0 → (m.Set k v now).Get k now = (default, false)) ∧
    (New m.defaultExpiration : Map K V).m = [] := by
  have hl : lookupKey k (m.Set k v now).m =
      some { expiresAt := now + m.defaultExpiration, v := v } :=
    lookupKey_assignKey_self k _ m.m
  refine ⟨fun httl hlt => ?_, fun httl => ?_, rfl⟩
  · have he : mapEntry.isExpired { expiresAt := now + m.defaultExpiration, v := v } later
        = true := by
      simp only [mapEntry.isExpired, decide_eq_true_eq]
      omega
    simp [Map.Get, hl, he]
  · have he : mapEntry.isExpired { expiresAt := now + m.defaultExpiration, v := v } now
        = true := by
      simp only [mapEntry.isExpired, decide_eq_true_eq]
      omega
    simp [Map.Get, hl, he]

/-- Concrete instantiation of the amended C8: with TTL 0 an entry set at
time 0 is gone by time 1, and with TTL -2 it is gone already at time 0. -/
theorem c8_witness :
    ((New 0 : Map Nat Nat).Set 1 5 0).Get 1 1 = (0, false) ∧
      ((New (-2) : Map Nat Nat).Set 1 5 0).Get 1 0 = (0, false) :=
  ⟨(c8_amended_spec (New 0 : Map Nat Nat) 1 5 0 1).1 (by decide) (by decide),
   ((c8_amended_spec (New (-2) : Map Nat Nat) 1 5 0 0).2.1 (by decide))⟩

/-- Claim C9 counterexample: revSample holds an entry for key 1 that is
logically expired (but still present) at time 5; a single Reset — with no
intervening Delete/Purge or fresh Set — makes it live again, and Get then
returns the old stored value.  This refutes "an entry that is logically
expired but still present never transitions back to live without first
becoming absent and being re-Set". -/
theorem c9_counterexample :
    revSample.status 1 5 = EntryStatus.expired ∧
    (revSample.Reset 1 5).1.status 1 5 = EntryStatus.live ∧
    (revSample.Reset 1 5).1.Get 1 5 = (7, true) := by decide

/-- Claim C9 (amended): the per-entry transitions are: an absent entry
stays absent under Delete, SetExpiration, Reset, Purge and the passage of
time, becoming present only via a fresh Set; a present entry becomes live
via Set (with non-negative TTL), via Reset (with non-negative TTL), or via
SetExpiration to a time not in the past — in each case even from the
expired state — and becomes expired via the passage of time (expiry is
monotone in time) or via SetExpiration to a past time; Delete always makes
the entry absent, and Purge makes exactly the expired entries absent,
leaving live entries live. -/
theorem c9_amended_spec (m : Map K V) (k : K) (v : V) (t now later : Int) (hwf : m.WF) :
    (lookupKey k m.m = none →
      (m.Delete k now).1.status k now = EntryStatus.absent ∧
      (m.SetExpiration k t).1 = m ∧
      (m.Reset k now).1 = m ∧
      (m.Purge now).1.status k later = EntryStatus.absent) ∧
    (now ≤ later → m.status k now = EntryStatus.expired →
      m.status k later = EntryStatus.expired) ∧
    (m.status k now = EntryStatus.absent → m.status k later = EntryStatus.absent) ∧
    (0 ≤ m.defaultExpiration → (m.Set k v now).status k now = EntryStatus.live) ∧
    (0 ≤ m.defaultExpiration → m.status k now ≠ EntryStatus.absent →
      (m.Reset k now).1.status k now = EntryStatus.live) ∧
    (m.status k now ≠ EntryStatus.absent →
      (m.SetExpiration k t).1.status k now =
        if t < now then EntryStatus.expired else EntryStatus.live) ∧
    (m.Delete k now).1.status k now = EntryStatus.absent ∧
    (m.status k now = EntryStatus.expired →
      (m.Purge now).1.status k now = EntryStatus.absent) ∧
    (m.status k now = EntryStatus.live →
      (m.Purge now).1.status k now = EntryStatus.live) := by
  have hfil : ∀ kk : K, lookupKey kk (m.Purge now).1.m =
      (lookupKey kk m.m).bind (fun e => if !e.isExpired now then some e else none) :=
    fun kk => lookupKey_filter _ m.m hwf kk
  refine ⟨?_, ?_, ?_, ?_, ?_, ?_, ?_, ?_, ?_⟩
  · intro hl
    refine ⟨?_, ?_, ?_, ?_⟩
    · simp [Map.status, Map.Delete, lookupKey_deleteKey_self]
    · simp [Map.SetExpiration, hl]
    · simp [Map.Reset, hl]
    · simp [Map.status, hfil k, hl]
  · intro hle hexp
    unfold Map.status at hexp ⊢
    cases hl : lookupKey k m.m with
    | none =>
      rw [hl] at hexp
      simp at hexp
    | some e =>
      rw [hl] at hexp
      by_cases he : e.isExpired now
      · have he' : e.isExpired later = true := by
          simp only [mapEntry.isExpired, decide_eq_true_eq] at he ⊢
          omega
        simp [he']
      · simp [he] at hexp
  · intro habs
    unfold Map.status at habs ⊢
    cases hl : lookupKey k m.m with
    | none => rfl
    | some e =>
      rw [hl] at habs
      by_cases he : e.isExpired now <;> simp [he] at habs
  · intro httl
    have he : mapEntry.isExpired { expiresAt := now + m.defaultExpiration, v := v } now
        = false := by
      simp only [mapEntry.isExpired, decide_eq_false_iff_not]
      omega
    simp [Map.status, Map.Set, lookupKey_assignKey_self, he]
  · intro httl habs
    unfold Map.status at habs
    cases hl : lookupKey k m.m with
    | none =>
      rw [hl] at habs
      simp at habs
    | some e =>
      have he : mapEntry.isExpired { expiresAt := now + m.defaultExpiration, v := e.v } now
          = false := by
        simp only [mapEntry.isExpired, decide_eq_false_iff_not]
        omega
      simp [Map.Reset, hl, Map.status, lookupKey_assignKey_self, he]
  · intro habs
    unfold Map.status at habs
    cases hl : lookupKey k m.m with
    | none =>
      rw [hl] at habs
      simp at habs
    | some e =>
      simp [Map.SetExpiration, hl, Map.status, lookupKey_assignKey_self, mapEntry.isExpired]
  · simp [Map.Delete, Map.status, lookupKey_deleteKey_self]
  · intro hexp
    unfold Map.status at hexp
    cases hl : lookupKey k m.m with
    | none =>
      rw [hl] at hexp
      simp at hexp
    | some e =>
      rw [hl] at hexp
      by_cases he : e.isExpired now
      · simp [Map.status, hfil k, hl, he]
      · simp [he] at hexp
  · intro hlive
    unfold Map.status at hlive
    cases hl : lookupKey k m.m with
    | none =>
      rw [hl] at hlive
      simp at hlive
    | some e =>
      rw [hl] at hlive
      by_cases he : e.isExpired now
      · simp [he] at hlive
      · simp [Map.status, hfil k, hl, he]

/-- Concrete instantiation of the amended C9 on revSample (one entry,
expired at time 5 but still present): Delete and Purge make it absent,
expiry persists as time passes, a fresh Set makes it live, and Reset
revives it from the expired state. -/
theorem c9_witness :
    (revSample.Delete 1 5).1.status 1 5 = EntryStatus.absent ∧
    (revSample.Purge 5).1.status 1 5 = EntryStatus.absent ∧
    revSample.status 1 7 = EntryStatus.expired ∧
    (revSample.Set 1 9 5).status 1 5 = EntryStatus.live ∧
    (revSample.Reset 1 5).1.status 1 5 = EntryStatus.live :=
  have h := c9_amended_spec revSample 1 9 0 5 7 (by decide)
  ⟨h.2.2.2.2.2.2.1, h.2.2.2.2.2.2.2.1 (by decide), h.2.1 (by decide) (by decide),
   h.2.2.2.1 (by decide), h.2.2.2.2.1 (by decide) (by decide)⟩

/-- Claim C10: for distinct keys k' ≠ k, each of Set, Delete,
SetExpiration and Reset on k leaves the entry for k' — value, expiration,
and presence or absence — unchanged. -/
theorem c10_frame_spec (m : Map K V) (k k' : K) (v : V) (t now : Int) (h : k' ≠ k) :
    lookupKey k' (m.Set k v now).m = lookupKey k' m.m ∧
    lookupKey k' (m.Delete k now).1.m = lookupKey k' m.m ∧
    lookupKey k' (m.SetExpiration k t).1.m = lookupKey k' m.m ∧
    lookupKey k' (m.Reset k now).1.m = lookupKey k' m.m := by
  refine ⟨?_, ?_, ?_, ?_⟩
  · exact lookupKey_assignKey_ne h _ m.m
  · exact lookupKey_deleteKey_ne h m.m
  · cases hl : lookupKey k m.m with
    | none => simp [Map.SetExpiration, hl]
    | some e => simp [Map.SetExpiration, hl, lookupKey_assignKey_ne h]
  · cases hl : lookupKey k m.m with
    | none => simp [Map.Reset, hl]
    | some e => simp [Map.Reset, hl, lookupKey_assignKey_ne h]

/-- Concrete instantiation of the frame property: operations on key 1 of
sample1 do not disturb the entry stored under key 2. -/
theorem c10_witness :
    lookupKey 2 (sample1.Set 1 99 4).m = lookupKey 2 sample1.m ∧
    lookupKey 2 (sample1.Delete 1 4).1.m = lookupKey 2 sample1.m ∧
    lookupKey 2 (sample1.SetExpiration 1 100).1.m = lookupKey 2 sample1.m ∧
    lookupKey 2 (sample1.Reset 1 4).1.m = lookupKey 2 sample1.m :=
  c10_frame_spec sample1 1 2 99 100 4 (by decide)

end timedmap
